import Mathlib

/-! kubectl rollout resume: `ResumeConfig.RunResume`

A shallow embedding of `pkg/kubectl/cmd/rollout/rollout_resume.go`.

`RunResume` and its visit callback are translated from the source file.  The
code they call into (`cmdutil.Factory`, `cmdutil.UsageError`,
`cmdutil.PrintSuccess` and the `resource.Builder` pipeline with its `Result`)
lives in other packages; those parts are modelled from the specification and
are marked as such.

The external world (cluster store, file system, client configuration) is an
arbitrary state type `σ` that the collaborators read and update.  Next to it
the model keeps a trace of the collaborator calls that were made, so that
"was not invoked" and "was invoked once, in this order" can be stated.
-/

namespace Rollout

/-! ## Data model -/

/-- Error taxonomy of the specification (§7). -/
inductive ErrorKind
  | InvalidArgument
  | UnknownResourceType
  | MalformedReference
  | NotFound
  | TransportError
  | DecodeError
  | ActionError
  deriving DecidableEq, Repr

/-- A Go `error` value that is not nil; a nil error is `none : Option Error`.
`aggregate` is the error that stands for several collected errors. -/
inductive Error
  | mk (kind : ErrorKind) (detail : String)
  | aggregate (errs : List Error)

/-- Modelled from the spec: the kinds of source of a ResourceReference (§3). -/
inductive SourceKind
  | explicit
  | file
  | directory
  | url
  deriving DecidableEq, Repr

/-- Modelled from the spec: ResourceReference (§3), the normalised form of one
positional argument or path-like input. -/
structure ResourceReference where
  sourceKind : SourceKind
  typeHint : Option String
  nameHint : Option String
  location : String
  deriving DecidableEq, Repr

/-- Modelled from the spec: `meta.RESTMapping` is declared in another package;
this is the TypeDescriptor of §3, `Resource` being the resolved resource type
that the callback reads as `Info.Mapping.Resource`. -/
structure RESTMapping where
  Resource : String
  Version : String
  Namespaced : Bool
  deriving DecidableEq, Repr, Inhabited

/-- Modelled from the spec: one item contained in a list payload; it carries
what is needed to make a singular resolved object of it. -/
structure Member where
  Mapping : RESTMapping
  Namespace : String
  Name : String
  data : String
  deriving DecidableEq, Repr, Inhabited

/-- Modelled from the spec: `runtime.Object` is declared in another package;
this is the payload of a ResolvedObject (§3), which is a single item or,
before flattening, a list container. -/
inductive RuntimeObject
  | single (data : String)
  | list (items : List Member)
  deriving DecidableEq, Repr, Inhabited

/-- Modelled from the spec: `resource.Info` is declared in another package;
this is the ResolvedObject of §3 with the field names the callback uses
(`Mapping`, `Name`, `Object`). -/
structure Info where
  Mapping : RESTMapping
  Namespace : String
  Name : String
  Object : RuntimeObject
  Source : Option ResourceReference
  deriving DecidableEq, Repr, Inhabited

/-- Modelled from the spec: one element of the sequence of
resolved-object-or-error entries (§4.3). -/
inductive Entry
  | resolved (info : Info)
  | failed (err : Error)

/-- The `*resource.Info` argument a visitor function receives for an entry.  An
error entry has no object; the nil pointer is rendered as the zero `Info`. -/
def Entry.info : Entry → Info
  | .resolved i => i
  | .failed _ => default

/-- The `error` argument a visitor function receives for an entry. -/
def Entry.err : Entry → Option Error
  | .resolved _ => none
  | .failed e => some e

/-- The payload of a resolved entry; an error entry has none. -/
def Entry.payload : Entry → Option RuntimeObject
  | .resolved i => some i.Object
  | .failed _ => none

/-- Modelled from the spec: `meta.RESTMapper`, the type registry handed to the
builder and to the printer.  Its code is in another package; it is an abstract
token here. -/
structure RESTMapper where
  id : Nat
  deriving DecidableEq, Repr, Inhabited

/-- Modelled from the spec: `runtime.ObjectTyper`, an abstract token. -/
structure ObjectTyper where
  id : Nat
  deriving DecidableEq, Repr, Inhabited

/-- Modelled from the spec: the client handle `Factory.ClientForMapping`, an
abstract token. -/
structure ClientMapper where
  id : Nat
  deriving DecidableEq, Repr, Inhabited

/-- Modelled from the spec: the `runtime.Decoder` returned by
`Factory.Decoder`, an abstract token that remembers the flag it was made with. -/
structure Decoder where
  toInternal : Bool
  deriving DecidableEq, Repr, Inhabited

/-- The `io.Writer` sink, rendered as the lines written to it so far. -/
abbrev Writer := List String

/-- A call that `RunResume` makes outside its own file, recorded in the order
the calls are made.  A call of the action function is recorded with what it
returned, a call of `PrintSuccess` with the arguments it was given. -/
inductive Event
  | defaultNamespace
  | referenceSet
  | resolve (ref : ResourceReference)
  | resumeObject (obj : RuntimeObject) (isAlreadyResumed : Bool) (err : Option Error)
  | printSuccess (shortOutput : Bool) (resource : String) (name : String)
      (operation : String)

/-- The external state `ext` together with the record of collaborator calls. -/
structure World (σ : Type) where
  ext : σ
  trace : List Event

/-- The objects the action function was invoked on, in order of invocation. -/
def applied : List Event → List RuntimeObject
  | [] => []
  | .resumeObject obj _ _ :: t => obj :: applied t
  | _ :: t => applied t

/-- Modelled from the spec: `cobra.Command`; only `Use` is read. -/
structure Command where
  Use : String
  deriving DecidableEq, Repr

/-- Modelled from the spec: `cmdutil.Factory` is declared in another package;
these are the members `RunResume` calls.  `ResumeObject` is the action function
`apply(payload) -> (alreadySatisfied, error)` of §6. -/
structure Factory (σ : Type) where
  Object : Bool → RESTMapper × ObjectTyper
  ResumeObject : RuntimeObject → σ → (Bool × Option Error) × σ
  DefaultNamespace : σ → (String × Bool × Option Error) × σ
  ClientForMapping : ClientMapper
  Decoder : Bool → Decoder

/-- ResumeConfig is the start of the data required to perform the operation.
Interface and function fields hold their value; `Info` holds the object the
pointer refers to. -/
structure ResumeConfig (σ : Type) where
  ResumeObject : RuntimeObject → σ → (Bool × Option Error) × σ
  Mapper : RESTMapper
  Typer : ObjectTyper
  Info : Info
  Out : Writer
  Filenames : List String
  Recursive : Bool

/-! ## Helpers of `cmdutil` -/

/-- Modelled from the spec: `cmdutil.UsageError` is missing; the spec names the
error it makes `InvalidArgument`. -/
def UsageError (_cmd : Command) (msg : String) : Error :=
  .mk .InvalidArgument msg

/-- Modelled from the spec: `cmdutil.PrintSuccess` is missing.  §4.6 gives the
rendering `<type>/<name> <status-phrase>`, one line per object, written to the
sink.  The spec describes no other rendering, so the mapper and the
short-output flag (always `false` at the two call sites) do not enter it. -/
def PrintSuccess (_mapper : RESTMapper) (_shortOutput : Bool) (out : Writer)
    (resource : String) (name : String) (operation : String) : Writer :=
  out ++ [resource ++ "/" ++ name ++ " " ++ operation]

/-! ## The resource builder -/

/-- Modelled from the spec: `resource.Builder` is missing; this records what
the chained calls of `RunResume` set. -/
structure Builder where
  mapper : RESTMapper
  typer : ObjectTyper
  clientMapper : ClientMapper
  decoder : Decoder
  Namespace : String
  defaultNamespace : Bool
  enforceNamespace : Bool
  recursive : Bool
  paths : List String
  singleResourceType : Bool
  args : List String
  continueOnError : Bool
  latest : Bool
  flatten : Bool
  deriving DecidableEq, Repr

/-- Modelled from the spec: `resource.ClientMapperFunc`, a conversion. -/
def ClientMapperFunc (c : ClientMapper) : ClientMapper := c

/-- Modelled from the spec: `resource.NewBuilder`. -/
def NewBuilder (mapper : RESTMapper) (typer : ObjectTyper) (clientMapper : ClientMapper)
    (decoder : Decoder) : Builder :=
  { mapper := mapper, typer := typer, clientMapper := clientMapper, decoder := decoder,
    Namespace := "", defaultNamespace := false, enforceNamespace := false,
    recursive := false, paths := [], singleResourceType := false, args := [],
    continueOnError := false, latest := false, flatten := false }

/-- Modelled from the spec: `Builder.NamespaceParam`. -/
def Builder.NamespaceParam (b : Builder) (ns : String) : Builder :=
  { b with Namespace := ns }

/-- Modelled from the spec: `Builder.DefaultNamespace`. -/
def Builder.DefaultNamespace (b : Builder) : Builder :=
  { b with defaultNamespace := true }

/-- Modelled from the spec: `Builder.FilenameParam`, the path-like inputs and
the recursive-expansion flag of §4.1. -/
def Builder.FilenameParam (b : Builder) (enforceNamespace : Bool) (recursive : Bool)
    (paths : List String) : Builder :=
  { b with enforceNamespace := enforceNamespace, recursive := recursive,
           paths := b.paths ++ paths }

/-- Modelled from the spec: `Builder.ResourceTypeOrNameArgs`, the positional
arguments of §4.1. -/
def Builder.ResourceTypeOrNameArgs (b : Builder) (allowEmptySelector : Bool)
    (args : List String) : Builder :=
  { b with singleResourceType := allowEmptySelector, args := b.args ++ args }

/-- Modelled from the spec: `Builder.ContinueOnError`. -/
def Builder.ContinueOnError (b : Builder) : Builder :=
  { b with continueOnError := true }

/-- Modelled from the spec: `Builder.Latest`. -/
def Builder.Latest (b : Builder) : Builder :=
  { b with latest := true }

/-- Modelled from the spec: `Builder.Flatten`. -/
def Builder.Flatten (b : Builder) : Builder :=
  { b with flatten := true }

/-- Modelled from the spec: the code the builder runs on its collaborators is
missing; these are the parts of the pipeline the spec leaves to collaborators
(type registry, store client, decoder, file system), at the granularity of its
components.  `referenceSet` is ReferenceSet with TypeResolver (§4.1, §4.2): it
normalises the builder's inputs to an ordered sequence of references, and its
failure is fatal.  `resolve` is the fetch or decode of one reference by
ObjectResolver (§4.3): its failure is recoverable and belongs to that
reference. -/
structure Pipeline (σ : Type) where
  referenceSet : Builder → σ → Except Error (List ResourceReference) × σ
  resolve : Builder → ResourceReference → σ → Except Error Info × σ

/-- Modelled from the spec: `resource.Result` is missing.  It holds the fatal
error, if any, and the references that the visit resolves one at a time
(the lazy sequence of §4.3 and §5). -/
structure Result where
  err : Option Error
  refs : List ResourceReference
  builder : Builder

/-- Modelled from the spec: `Result.Err` is missing; it gives the fatal error
of the result. -/
def Result.Err (r : Result) : Option Error := r.err

/-- Modelled from the spec: `Builder.Do` is missing.  Normalisation runs here; a fatal
error (malformed reference, unknown resource type) ends up in the result and
leaves no reference to resolve. -/
def Builder.Do {σ : Type} (b : Builder) (p : Pipeline σ) (w : World σ) : Result × World σ :=
  let n := p.referenceSet b w.ext
  let w1 : World σ := { ext := n.2, trace := w.trace ++ [Event.referenceSet] }
  match n.1 with
  | .error e => ({ err := some e, refs := [], builder := b }, w1)
  | .ok refs => ({ err := none, refs := refs, builder := b }, w1)

/-- The singular resolved object made of one member of a list payload. -/
def Member.toInfo (src : Option ResourceReference) (m : Member) : Info :=
  { Mapping := m.Mapping, Namespace := m.Namespace, Name := m.Name,
    Object := .single m.data, Source := src }

/-- Modelled from the spec: the visitor behind `Builder.Flatten` is missing;
this is the Flattener of §4.4.  An entry whose payload is a
list becomes one entry per contained item, in the list's order; any other entry
passes through unchanged, error entries included. -/
def FlattenEntry : Entry → List Entry
  | .failed e => [.failed e]
  | .resolved i =>
    match i.Object with
    | .single _ => [.resolved i]
    | .list items => items.map (fun m => Entry.resolved (m.toInfo i.Source))

/-- The entry that the resolution of one reference yields. -/
def Entry.ofExcept : Except Error Info → Entry
  | .ok i => .resolved i
  | .error e => .failed e

/-- The entries handed on for one resolved reference. -/
def entriesOf (b : Builder) (res : Except Error Info) : List Entry :=
  if b.flatten then FlattenEntry (Entry.ofExcept res) else [Entry.ofExcept res]

/-- A visitor function: it receives the entry's info and error, and works on
the state `κ` it has captured and on the world. -/
abbrev VisitorFunc (κ σ : Type) :=
  Info → Option Error → κ → World σ → Option Error × κ × World σ

/-- What a visit leaves behind: the errors collected, the final captured state
and world, and for the record the entries as they were resolved (before
flattening), the entries handed to the visitor function and what it returned
for each, all in order. -/
structure Visited (κ σ : Type) where
  errs : List Error
  resolved : List Entry
  visited : List Entry
  returns : List (Option Error)
  state : κ
  world : World σ

/-- Modelled from the spec: the visitors behind `resource.Result` are missing;
this is the loop of BatchExecutor (§4.5) over a run of entries.  The visitor
function is called on each entry in order.  With
`continueOnError` an error it returns is collected and the loop goes on;
without it the first error ends the loop. -/
def visitEntries {κ σ : Type} (continueOnError : Bool) (fn : VisitorFunc κ σ) :
    List Entry → κ → World σ → Visited κ σ
  | [], k, w =>
    { errs := [], resolved := [], visited := [], returns := [], state := k, world := w }
  | e :: es, k, w =>
    let r := fn e.info e.err k w
    match r.1 with
    | some err =>
      if continueOnError then
        let v := visitEntries continueOnError fn es r.2.1 r.2.2
        { v with errs := err :: v.errs, visited := e :: v.visited,
                 returns := some err :: v.returns }
      else
        { errs := [err], resolved := [], visited := [e], returns := [some err],
          state := r.2.1, world := r.2.2 }
    | none =>
      let v := visitEntries continueOnError fn es r.2.1 r.2.2
      { v with visited := e :: v.visited, returns := none :: v.returns }

/-- Modelled from the spec: the visitors behind `resource.Result` are missing;
this is the pull-based pipeline of §5.  Each reference is resolved when its
turn comes, flattened if the builder asks for it, and its entries are visited
before the next reference is resolved. -/
def visitRefs {κ σ : Type} (p : Pipeline σ) (b : Builder) (fn : VisitorFunc κ σ) :
    List ResourceReference → κ → World σ → Visited κ σ
  | [], k, w =>
    { errs := [], resolved := [], visited := [], returns := [], state := k, world := w }
  | ref :: refs, k, w =>
    let res := p.resolve b ref w.ext
    let w1 : World σ := { ext := res.2, trace := w.trace ++ [Event.resolve ref] }
    let v1 := visitEntries b.continueOnError fn (entriesOf b res.1) k w1
    if !b.continueOnError && !v1.errs.isEmpty then
      { v1 with resolved := [Entry.ofExcept res.1] }
    else
      let v2 := visitRefs p b fn refs v1.state v1.world
      { errs := v1.errs ++ v2.errs, resolved := Entry.ofExcept res.1 :: v2.resolved,
        visited := v1.visited ++ v2.visited, returns := v1.returns ++ v2.returns,
        state := v2.state, world := v2.world }

/-- Modelled from the spec: the aggregation of errors in `Result.Visit` is
missing; this is the error a visit reports for the errors it collected (§7:
recoverable errors are aggregated into the final status).  No error collected
gives nil. -/
def aggregate : List Error → Option Error
  | [] => none
  | errs => some (Error.aggregate errs)

/-- The outcome of `Result.Visit`: the error returned, and the rest as in
`Visited`. -/
structure VisitOutcome (κ σ : Type) where
  err : Option Error
  resolved : List Entry
  visited : List Entry
  returns : List (Option Error)
  state : κ
  world : World σ

/-- Modelled from the spec: `Result.Visit` is missing.  A result that carries a fatal
error visits nothing.  Otherwise the pipeline runs; with `continueOnError` the
collected errors are aggregated, without it the error that stopped the loop is
returned. -/
def Result.Visit {κ σ : Type} (r : Result) (p : Pipeline σ) (fn : VisitorFunc κ σ)
    (k : κ) (w : World σ) : VisitOutcome κ σ :=
  match r.err with
  | some e =>
    { err := some e, resolved := [], visited := [], returns := [], state := k, world := w }
  | none =>
    let v := visitRefs p r.builder fn r.refs k w
    { err := if r.builder.continueOnError then aggregate v.errs else v.errs.head?,
      resolved := v.resolved, visited := v.visited, returns := v.returns,
      state := v.state, world := v.world }

/-! ## `RunResume` -/

/-- The function literal passed to `r.Visit` in `RunResume` (source lines
101-118).  The captured variable is the config `o`. -/
def resumeVisitor {σ : Type} : VisitorFunc (ResumeConfig σ) σ :=
  fun info err o w =>
    match err with
    | some e => (some e, o, w)
    | none =>
      let o := { o with Info := info }
      let res := o.ResumeObject o.Info.Object w.ext
      let isAlreadyResumed := res.1.1
      let err := res.1.2
      let w : World σ :=
        { ext := res.2,
          trace := w.trace ++ [Event.resumeObject o.Info.Object isAlreadyResumed err] }
      match err with
      | some e => (some e, o, w)
      | none =>
        if isAlreadyResumed then
          (none, { o with Out := PrintSuccess o.Mapper false o.Out o.Info.Mapping.Resource
                                   o.Info.Name "already resumed" },
            { w with trace := w.trace ++ [Event.printSuccess false o.Info.Mapping.Resource
                                            o.Info.Name "already resumed"] })
        else
          (none, { o with Out := PrintSuccess o.Mapper false o.Out o.Info.Mapping.Resource
                                   o.Info.Name "resumed" },
            { w with trace := w.trace ++ [Event.printSuccess false o.Info.Mapping.Resource
                                            o.Info.Name "resumed"] })

/-- What a call of `RunResume` leaves behind: the error returned, the config,
the contents of the sink `out`, the world, and for the record the entries as
resolved, the entries that were visited and what the callback returned for
each. -/
structure RunResult (σ : Type) where
  err : Option Error
  config : ResumeConfig σ
  out : Writer
  world : World σ
  resolved : List Entry
  visited : List Entry
  returns : List (Option Error)

/-- The builder chain of `RunResume` (source lines 88-94), up to `Do`. -/
def resumeBuilder {σ : Type} (f : Factory σ) (o : ResumeConfig σ) (cmdNamespace : String)
    (enforceNamespace : Bool) (args : List String) : Builder :=
  (NewBuilder o.Mapper o.Typer (ClientMapperFunc f.ClientForMapping) (f.Decoder true))
    |>.NamespaceParam cmdNamespace
    |>.DefaultNamespace
    |>.FilenameParam enforceNamespace o.Recursive o.Filenames
    |>.ResourceTypeOrNameArgs true args
    |>.ContinueOnError
    |>.Latest
    |>.Flatten

/-- `ResumeConfig.RunResume` (source lines 74-123).  `out` is the sink the
command was given; `o.Out` aliases it once assigned, so the sink's contents
after the call are those of `o.Out`. -/
def RunResume {σ : Type} (p : Pipeline σ) (o : ResumeConfig σ) (f : Factory σ) (cmd : Command)
    (out : Writer) (args : List String) (w : World σ) : RunResult σ :=
  if args.length = 0 ∧ o.Filenames.length = 0 then
    { err := some (UsageError cmd cmd.Use), config := o, out := out, world := w,
      resolved := [], visited := [], returns := [] }
  else
    let mt := f.Object false
    let o := { o with Mapper := mt.1, Typer := mt.2 }
    let o := { o with ResumeObject := f.ResumeObject }
    let o := { o with Out := out }
    let ns := f.DefaultNamespace w.ext
    let cmdNamespace := ns.1.1
    let enforceNamespace := ns.1.2.1
    let err := ns.1.2.2
    let w : World σ := { ext := ns.2, trace := w.trace ++ [Event.defaultNamespace] }
    match err with
    | some e => { err := some e, config := o, out := o.Out, world := w,
                  resolved := [], visited := [], returns := [] }
    | none =>
      let d := (resumeBuilder f o cmdNamespace enforceNamespace args).Do p w
      let r := d.1
      let w := d.2
      match r.Err with
      | some e => { err := some e, config := o, out := o.Out, world := w,
                    resolved := [], visited := [], returns := [] }
      | none =>
        let v := r.Visit p resumeVisitor o w
        match v.err with
        | some e => { err := some e, config := v.state, out := v.state.Out, world := v.world,
                      resolved := v.resolved, visited := v.visited, returns := v.returns }
        | none => { err := none, config := v.state, out := v.state.Out, world := v.world,
                    resolved := v.resolved, visited := v.visited, returns := v.returns }

/-! ## Observations used in the statements -/

/-- The errors the action function returned, in order of invocation. -/
def actionErrors : List Event → List Error
  | [] => []
  | .resumeObject _ _ (some e) :: t => e :: actionErrors t
  | _ :: t => actionErrors t

/-- The resolution errors among the entries, in order. -/
def entryErrors : List Entry → List Error
  | [] => []
  | .failed e :: t => e :: entryErrors t
  | .resolved _ :: t => entryErrors t

/-- The objects of the entries for which the callback returned nil, in order:
the entries whose outcome is not `failed`. -/
def reported : List Entry → List (Option Error) → List Info
  | e :: es, none :: rs => e.info :: reported es rs
  | _ :: es, some _ :: rs => reported es rs
  | _, _ => []

/-- The status phrase of a successful outcome. -/
def statusPhrase (isAlreadyResumed : Bool) : String :=
  if isAlreadyResumed then "already resumed" else "resumed"

/-- The line `<type>/<name> <status-phrase>` of §4.6 for an object. -/
def statusLine (i : Info) (isAlreadyResumed : Bool) : String :=
  i.Mapping.Resource ++ "/" ++ i.Name ++ " " ++ statusPhrase isAlreadyResumed

/-- What the action function answered where it returned no error, in order of
invocation: whether the object was already resumed. -/
def answers : List Event → List Bool
  | [] => []
  | .resumeObject _ b none :: t => b :: answers t
  | _ :: t => answers t

/-- The calls of `PrintSuccess` with the arguments given (short-output flag,
resource, name, operation), in order. -/
def printed : List Event → List (Bool × String × String × String)
  | [] => []
  | .printSuccess s r n op :: t => (s, r, n, op) :: printed t
  | _ :: t => printed t

/-- The arguments of the call of `PrintSuccess` that reports object `i`:
`shortOutput = false`, the object's resource and name, and the phrase. -/
def printCall (i : Info) (isAlreadyResumed : Bool) : Bool × String × String × String :=
  (false, i.Mapping.Resource, i.Name, statusPhrase isAlreadyResumed)

/-- The line is one of the two status lines of the object. -/
def IsLineOf (i : Info) (line : String) : Prop :=
  line = statusLine i true ∨ line = statusLine i false

/-- The entry is singular: an error, or an object whose payload is no list. -/
def Entry.singular : Entry → Prop
  | .failed _ => True
  | .resolved i => ∃ d, i.Object = RuntimeObject.single d

/-- The config of `RunResume` once the collaborators are stored in it (source
lines 79-81). -/
def setupConfig {σ : Type} (o : ResumeConfig σ) (f : Factory σ) (out : Writer) :
    ResumeConfig σ :=
  { o with Mapper := (f.Object false).1, Typer := (f.Object false).2,
           ResumeObject := f.ResumeObject, Out := out }

/-- The world of `RunResume` after the namespace lookup (source line 83). -/
def namespaceWorld {σ : Type} (f : Factory σ) (w : World σ) : World σ :=
  { ext := (f.DefaultNamespace w.ext).2, trace := w.trace ++ [Event.defaultNamespace] }

/-- The builder of `RunResume` as it stands when `Do` is called on it (source
lines 88-94). -/
def setupBuilder {σ : Type} (o : ResumeConfig σ) (f : Factory σ) (out : Writer)
    (args : List String) (w : World σ) : Builder :=
  resumeBuilder f (setupConfig o f out) (f.DefaultNamespace w.ext).1.1
    (f.DefaultNamespace w.ext).1.2.1 args

/-- The result `r` of the builder chain of `RunResume` (source line 95). -/
def setupResult {σ : Type} (p : Pipeline σ) (o : ResumeConfig σ) (f : Factory σ)
    (out : Writer) (args : List String) (w : World σ) : Result :=
  ((setupBuilder o f out args w).Do p (namespaceWorld f w)).1

/-- The visit of `RunResume` (source line 101) when it is reached: the
pipeline run with the callback on the references of `r`. -/
def setupVisit {σ : Type} (p : Pipeline σ) (o : ResumeConfig σ) (f : Factory σ)
    (out : Writer) (args : List String) (w : World σ) : Visited (ResumeConfig σ) σ :=
  visitRefs p (setupBuilder o f out args w) resumeVisitor (setupResult p o f out args w).refs
    (setupConfig o f out) ((setupBuilder o f out args w).Do p (namespaceWorld f w)).2

/-- The record of a run, read as the record of a visit. -/
def RunResult.toVisited {σ : Type} (res : RunResult σ) : Visited (ResumeConfig σ) σ :=
  { errs := res.returns.reduceOption, resolved := res.resolved, visited := res.visited,
    returns := res.returns, state := { res.config with Out := res.out }, world := res.world }

/-- What a visit `v` that started from config `o` and world `w` has done, entry
by entry: a resolution error is returned as it is, the errors collected are
the ones returned, the action function ran on the resolved entries in order,
each collected error is a resolution error or an error of the action function,
and one status line was written per entry that did not fail. -/
structure Sound {σ : Type} (o : ResumeConfig σ) (w : World σ)
    (v : Visited (ResumeConfig σ) σ) : Prop where
  rets : List.Forall₂ (fun e r => ∀ err, e = Entry.failed err → r = some err)
    v.visited v.returns
  errs : v.errs = v.returns.reduceOption
  trace : ∃ evs, v.world.trace = w.trace ++ evs ∧
    applied evs = v.visited.filterMap Entry.payload ∧
    v.errs.length = (entryErrors v.visited).length + (actionErrors evs).length
  out : ∃ L, v.state.Out = o.Out ++ L ∧
    List.Forall₂ IsLineOf (reported v.visited v.returns) L

/-- What a visit `v` that started from config `o` and world `w` has reported:
the entries that did not fail are reported one by one and in order, each by a
call of `PrintSuccess` with its own resource and name and with the phrase for
what the action function answered on it, and each call adds that object's
status line to the sink. -/
def Reports {σ : Type} (o : ResumeConfig σ) (w : World σ)
    (v : Visited (ResumeConfig σ) σ) : Prop :=
  ∃ evs, v.world.trace = w.trace ++ evs ∧
    (answers evs).length = (reported v.visited v.returns).length ∧
    v.state.Out = o.Out
      ++ List.zipWith statusLine (reported v.visited v.returns) (answers evs) ∧
    printed evs = List.zipWith printCall (reported v.visited v.returns) (answers evs)

/-! ## A concrete instance

A small cluster: the external state is the list of names of the paused
objects.  Positional arguments are `type/name` pairs or a bare type; a bare
type lists four objects; the name `missing` is not found; the action function
fails on the object `broken`, resumes an object that is paused and reports an
object that is not paused as already resumed. -/

/-- Split a string at its first slash. -/
def splitSlash : List Char → List Char × Option (List Char)
  | [] => ([], none)
  | c :: cs => if c = '/' then ([], some cs) else (c :: (splitSlash cs).1, (splitSlash cs).2)

/-- Read one positional argument of the instance; anything but `type` and
`type/name` is malformed. -/
def parseArg (s : String) : Except Error ResourceReference :=
  match splitSlash s.data with
  | (t, none) =>
    if t = [] then .error (.mk .MalformedReference s)
    else .ok { sourceKind := .explicit, typeHint := some (String.mk t), nameHint := none,
               location := s }
  | (t, some n) =>
    if t = [] ∨ n = [] ∨ '/' ∈ n then .error (.mk .MalformedReference s)
    else .ok { sourceKind := .explicit, typeHint := some (String.mk t),
               nameHint := some (String.mk n), location := s }

/-- Read the positional arguments in order; the first malformed one is fatal. -/
def parseArgs : List String → Except Error (List ResourceReference)
  | [] => .ok []
  | a :: as =>
    match parseArg a, parseArgs as with
    | .error e, _ => .error e
    | .ok _, .error e => .error e
    | .ok r, .ok rs => .ok (r :: rs)

/-- An object of the instance as a member of a list. -/
def demoMember (t : String) (ns : String) (n : String) : Member :=
  { Mapping := { Resource := t, Version := "v1", Namespaced := true }, Namespace := ns,
    Name := n, data := n }

/-- The collaborators of the instance. -/
def demoPipeline : Pipeline (List String) where
  referenceSet := fun b s => (parseArgs b.args, s)
  resolve := fun b ref s =>
    match ref.nameHint with
    | none =>
      (.ok { Mapping := { Resource := ref.typeHint.getD "", Version := "v1",
                          Namespaced := true },
             Namespace := b.Namespace, Name := "", Source := some ref,
             Object := .list ((["a", "b", "c", "d"]).map
               (demoMember (ref.typeHint.getD "") b.Namespace)) }, s)
    | some n =>
      if n = "missing" then (.error (.mk .NotFound ref.location), s)
      else
        (.ok { Mapping := { Resource := ref.typeHint.getD "", Version := "v1",
                            Namespaced := true },
               Namespace := b.Namespace, Name := n, Source := some ref,
               Object := .single n }, s)

/-- The factory of the instance. -/
def demoFactory : Factory (List String) where
  Object := fun _ => (⟨0⟩, ⟨0⟩)
  ResumeObject := fun obj paused =>
    match obj with
    | .single d =>
      if d = "broken" then ((false, some (.mk .ActionError d)), paused)
      else if d ∈ paused then ((false, none), paused.erase d)
      else ((true, none), paused)
    | .list _ => ((false, some (.mk .ActionError "list")), paused)
  DefaultNamespace := fun s => (("default", false, none), s)
  ClientForMapping := ⟨0⟩
  Decoder := fun b => ⟨b⟩

/-- A fresh config, as `NewCmdRolloutResume` makes it (no filename given). -/
def demoConfig : ResumeConfig (List String) :=
  { ResumeObject := fun _ s => ((false, none), s), Mapper := default, Typer := default,
    Info := default, Out := [], Filenames := [], Recursive := false }

/-- The world of the instance: `a`, `c` and `web` are paused, nothing has been
called yet. -/
def demoWorld : World (List String) := { ext := ["a", "c", "web"], trace := [] }

/-- The instance run on the given positional arguments, with an empty sink. -/
def demoRun (args : List String) : RunResult (List String) :=
  RunResume demoPipeline demoConfig demoFactory ⟨"resume RESOURCE"⟩ [] args demoWorld

/-- A resolved object of the instance. -/
def demoInfo (n : String) : Info :=
  { Mapping := { Resource := "deployments", Version := "v1", Namespaced := true },
    Namespace := "default", Name := n, Object := .single n, Source := none }

/-! ## Lemmas on the observations -/

theorem applied_append (a b : List Event) : applied (a ++ b) = applied a ++ applied b := by
  induction a with
  | nil => rfl
  | cons x t ih => cases x <;> simp [applied, ih]

theorem actionErrors_append (a b : List Event) :
    actionErrors (a ++ b) = actionErrors a ++ actionErrors b := by
  induction a with
  | nil => rfl
  | cons x t ih =>
    cases x with
    | resumeObject obj al err => cases err <;> simp [actionErrors, ih]
    | _ => simp [actionErrors, ih]

theorem entryErrors_append (a b : List Entry) :
    entryErrors (a ++ b) = entryErrors a ++ entryErrors b := by
  induction a with
  | nil => rfl
  | cons x t ih => cases x <;> simp [entryErrors, ih]

theorem reported_append (a b : List Entry) (ra rb : List (Option Error))
    (h : ra.length = a.length) :
    reported (a ++ b) (ra ++ rb) = reported a ra ++ reported b rb := by
  induction a generalizing ra with
  | nil =>
    cases ra with
    | nil => simp [reported]
    | cons r rs => simp at h
  | cons x t ih =>
    cases ra with
    | nil => simp at h
    | cons r rs =>
      have h1 : rs.length = t.length := by simpa using h
      cases r <;> simp [reported, ih rs h1]

/-! ## The callback -/

theorem resumeVisitor_err {σ : Type} (info : Info) (e : Error) (o : ResumeConfig σ)
    (w : World σ) : resumeVisitor info (some e) o w = (some e, o, w) := rfl

theorem resumeVisitor_action_err {σ : Type} (info : Info) (o : ResumeConfig σ) (w : World σ)
    (e : Error) (h : (o.ResumeObject info.Object w.ext).1.2 = some e) :
    resumeVisitor info none o w =
      (some e, { o with Info := info },
        { ext := (o.ResumeObject info.Object w.ext).2,
          trace := w.trace ++ [Event.resumeObject info.Object
                    (o.ResumeObject info.Object w.ext).1.1 (some e)] }) := by
  simp [resumeVisitor, h]

theorem resumeVisitor_ok {σ : Type} (info : Info) (o : ResumeConfig σ) (w : World σ)
    (h : (o.ResumeObject info.Object w.ext).1.2 = none) :
    resumeVisitor info none o w =
      (none, { o with Info := info,
                      Out := o.Out ++ [statusLine info (o.ResumeObject info.Object w.ext).1.1] },
        { ext := (o.ResumeObject info.Object w.ext).2,
          trace := w.trace ++ [Event.resumeObject info.Object
                    (o.ResumeObject info.Object w.ext).1.1 none,
                  Event.printSuccess false info.Mapping.Resource info.Name
                    (statusPhrase (o.ResumeObject info.Object w.ext).1.1)] }) := by
  simp only [resumeVisitor, h]
  cases hb : (o.ResumeObject info.Object w.ext).1.1 <;>
    simp [PrintSuccess, statusLine, statusPhrase]

/-! ## The visit loop with the callback -/

theorem Sound.nil {σ : Type} (o : ResumeConfig σ) (w : World σ) (rs : List Entry) :
    Sound o w { errs := [], resolved := rs, visited := [], returns := [], state := o,
                world := w } := by
  refine ⟨List.Forall₂.nil, rfl, ⟨[], ?_, rfl, rfl⟩, ⟨[], ?_, ?_⟩⟩
  · simp
  · simp
  · simp [reported]

theorem Sound.cons {σ : Type} {o c : ResumeConfig σ} {w u : World σ}
    {v : Visited (ResumeConfig σ) σ} (e : Entry) (r : Option Error) (evs : List Event)
    (L : List String) (rs : List Entry)
    (hr : ∀ err, e = Entry.failed err → r = some err)
    (hw : u.trace = w.trace ++ evs)
    (happ : applied evs = [e].filterMap Entry.payload)
    (hcnt : r.toList.length = (entryErrors [e]).length + (actionErrors evs).length)
    (ho : c.Out = o.Out ++ L)
    (hL : List.Forall₂ IsLineOf (reported [e] [r]) L)
    (h : Sound c u v) :
    Sound o w { errs := r.toList ++ v.errs, resolved := rs, visited := e :: v.visited,
                returns := r :: v.returns, state := v.state, world := v.world } := by
  obtain ⟨h1, h2, ⟨evs2, ht, ha, hc⟩, ⟨L2, hL2, hF⟩⟩ := h
  refine ⟨List.Forall₂.cons hr h1, ?_, ⟨evs ++ evs2, ?_, ?_, ?_⟩, ⟨L ++ L2, ?_, ?_⟩⟩
  · cases r <;> simp [h2, List.reduceOption_cons_of_none, List.reduceOption_cons_of_some]
  · simp [ht, hw]
  · simp only [applied_append, happ, ha]
    cases e <;> simp [Entry.payload]
  · simp only [actionErrors_append, List.length_append, hc]
    have : (entryErrors (e :: v.visited)).length
        = (entryErrors [e]).length + (entryErrors v.visited).length := by
      cases e with
      | resolved i => simp [entryErrors]
      | failed x => simp [entryErrors]; omega
    omega
  · simp [hL2, ho]
  · have : reported (e :: v.visited) (r :: v.returns)
        = reported [e] [r] ++ reported v.visited v.returns := by
      cases r <;> simp [reported]
    rw [this]
    exact List.rel_append hL hF

theorem Sound.append {σ : Type} {o : ResumeConfig σ} {w : World σ}
    {v1 v2 : Visited (ResumeConfig σ) σ} (rs : List Entry)
    (h1 : Sound o w v1) (h2 : Sound v1.state v1.world v2) :
    Sound o w { errs := v1.errs ++ v2.errs, resolved := rs,
                visited := v1.visited ++ v2.visited, returns := v1.returns ++ v2.returns,
                state := v2.state, world := v2.world } := by
  obtain ⟨a1, a2, ⟨evs1, at1, aa1, ac1⟩, ⟨L1, aL1, aF1⟩⟩ := h1
  obtain ⟨b1, b2, ⟨evs2, bt1, ba1, bc1⟩, ⟨L2, bL1, bF1⟩⟩ := h2
  refine ⟨List.rel_append a1 b1, ?_, ⟨evs1 ++ evs2, ?_, ?_, ?_⟩, ⟨L1 ++ L2, ?_, ?_⟩⟩
  · simp [a2, b2, List.reduceOption_append]
  · simp [bt1, at1]
  · simp [applied_append, aa1, ba1]
  · simp only [actionErrors_append, entryErrors_append, List.length_append]
    omega
  · simp [bL1, aL1]
  · rw [reported_append _ _ _ _ a1.length_eq.symm]
    exact List.rel_append aF1 bF1

theorem Sound.events {σ : Type} {o : ResumeConfig σ} {w u : World σ}
    {v : Visited (ResumeConfig σ) σ} (evs : List Event) (hw : u.trace = w.trace ++ evs)
    (happ : applied evs = []) (hact : actionErrors evs = []) (h : Sound o u v) :
    Sound o w v := by
  obtain ⟨a1, a2, ⟨evs1, at1, aa1, ac1⟩, hout⟩ := h
  refine ⟨a1, a2, ⟨evs ++ evs1, ?_, ?_, ?_⟩, hout⟩
  · simp [at1, hw]
  · simp [applied_append, happ, aa1]
  · simp [actionErrors_append, hact, ac1]

theorem Sound.resolved {σ : Type} {o : ResumeConfig σ} {w : World σ}
    {v : Visited (ResumeConfig σ) σ} (rs : List Entry) (h : Sound o w v) :
    Sound o w { v with resolved := rs } :=
  ⟨h.rets, h.errs, h.trace, h.out⟩

theorem visitEntries_visited {κ σ : Type} (fn : VisitorFunc κ σ) (es : List Entry) (k : κ)
    (w : World σ) : (visitEntries true fn es k w).visited = es := by
  induction es generalizing k w with
  | nil => rfl
  | cons e es ih =>
    simp only [visitEntries]
    split <;> simp [ih]

theorem visitEntries_sound {σ : Type} (es : List Entry) (o : ResumeConfig σ) (w : World σ) :
    Sound o w (visitEntries true resumeVisitor es o w) := by
  induction es generalizing o w with
  | nil => exact Sound.nil o w []
  | cons e es ih =>
    cases e with
    | failed err =>
      simp only [visitEntries, Entry.info, Entry.err, resumeVisitor_err, if_true]
      exact Sound.cons (o := o) (w := w) (Entry.failed err) (some err) [] []
        _ (by simp) (by simp)
        (by simp [applied, Entry.payload]) (by simp [entryErrors, actionErrors]) (by simp)
        (by simp [reported]) (ih o w)
    | resolved i =>
      cases hres : (o.ResumeObject i.Object w.ext).1.2 with
      | some err =>
        simp only [visitEntries, Entry.info, Entry.err, resumeVisitor_action_err i o w err hres,
          if_true]
        exact Sound.cons (o := o) (w := w) (c := { o with Info := i })
          (u := { ext := (o.ResumeObject i.Object w.ext).2,
                   trace := w.trace ++ [Event.resumeObject i.Object
                     (o.ResumeObject i.Object w.ext).1.1 (some err)] })
          (Entry.resolved i) (some err)
          [Event.resumeObject i.Object (o.ResumeObject i.Object w.ext).1.1 (some err)] []
          _ (by simp) rfl
          (by simp [applied, Entry.payload]) (by simp [entryErrors, actionErrors]) (by simp)
          (by simp [reported]) (ih _ _)
      | none =>
        simp only [visitEntries, Entry.info, Entry.err, resumeVisitor_ok i o w hres]
        exact Sound.cons (o := o) (w := w)
          (c := { o with Info := i,
                          Out := o.Out ++ [statusLine i (o.ResumeObject i.Object w.ext).1.1] })
          (u := { ext := (o.ResumeObject i.Object w.ext).2,
                   trace := w.trace ++ [Event.resumeObject i.Object
                     (o.ResumeObject i.Object w.ext).1.1 none,
                     Event.printSuccess false i.Mapping.Resource i.Name
                       (statusPhrase (o.ResumeObject i.Object w.ext).1.1)] })
          (Entry.resolved i) none
          [Event.resumeObject i.Object (o.ResumeObject i.Object w.ext).1.1 none,
            Event.printSuccess false i.Mapping.Resource i.Name
              (statusPhrase (o.ResumeObject i.Object w.ext).1.1)]
          [statusLine i (o.ResumeObject i.Object w.ext).1.1]
          _ (by simp) rfl
          (by simp [applied, Entry.payload]) (by simp [entryErrors, actionErrors]) rfl
          (by
            simp only [reported, Entry.info]
            refine List.Forall₂.cons ?_ List.Forall₂.nil
            cases (o.ResumeObject i.Object w.ext).1.1
            · exact Or.inr rfl
            · exact Or.inl rfl) (ih _ _)

/-! ## The pipeline with the callback -/

theorem visitRefs_sound {σ : Type} (p : Pipeline σ) (b : Builder)
    (hb : b.continueOnError = true) (refs : List ResourceReference) (o : ResumeConfig σ)
    (w : World σ) : Sound o w (visitRefs p b resumeVisitor refs o w) := by
  induction refs generalizing o w with
  | nil => exact Sound.nil o w []
  | cons ref refs ih =>
    simp only [visitRefs, hb, Bool.not_true, Bool.false_and, Bool.false_eq_true, if_false]
    refine Sound.append _ ?_ (ih _ _)
    exact Sound.events [Event.resolve ref] rfl rfl rfl (visitEntries_sound _ _ _)

theorem visitRefs_visited {κ σ : Type} (p : Pipeline σ) (b : Builder)
    (hb : b.continueOnError = true) (fn : VisitorFunc κ σ) (refs : List ResourceReference)
    (k : κ) (w : World σ) :
    (visitRefs p b fn refs k w).visited
      = (visitRefs p b fn refs k w).resolved.flatMap
          (fun e => if b.flatten then FlattenEntry e else [e]) := by
  induction refs generalizing k w with
  | nil => rfl
  | cons ref refs ih =>
    simp only [visitRefs, hb, Bool.not_true, Bool.false_and, Bool.false_eq_true, if_false,
      List.flatMap_cons, visitEntries_visited, ← ih]
    simp only [entriesOf]

theorem visitRefs_resolved_length {κ σ : Type} (p : Pipeline σ) (b : Builder)
    (hb : b.continueOnError = true) (fn : VisitorFunc κ σ) (refs : List ResourceReference)
    (k : κ) (w : World σ) : (visitRefs p b fn refs k w).resolved.length = refs.length := by
  induction refs generalizing k w with
  | nil => rfl
  | cons ref refs ih =>
    simp [visitRefs, hb, ih]

theorem resumeBuilder_continueOnError {σ : Type} (f : Factory σ) (o : ResumeConfig σ)
    (ns : String) (enf : Bool) (args : List String) :
    (resumeBuilder f o ns enf args).continueOnError = true := rfl

theorem resumeBuilder_flatten {σ : Type} (f : Factory σ) (o : ResumeConfig σ)
    (ns : String) (enf : Bool) (args : List String) :
    (resumeBuilder f o ns enf args).flatten = true := rfl

theorem Do_builder {σ : Type} (b : Builder) (p : Pipeline σ) (w : World σ) :
    (b.Do p w).1.builder = b := by
  simp only [Builder.Do]
  split <;> rfl

theorem Do_trace {σ : Type} (b : Builder) (p : Pipeline σ) (w : World σ) :
    (b.Do p w).2.trace = w.trace ++ [Event.referenceSet] := by
  simp only [Builder.Do]
  split <;> rfl

/-! ## `RunResume`, case by case -/

theorem RunResume_usage {σ : Type} (p : Pipeline σ) (o : ResumeConfig σ) (f : Factory σ)
    (cmd : Command) (out : Writer) (args : List String) (w : World σ)
    (h : args.length = 0 ∧ o.Filenames.length = 0) :
    RunResume p o f cmd out args w =
      { err := some (UsageError cmd cmd.Use), config := o, out := out, world := w,
        resolved := [], visited := [], returns := [] } := by
  simp only [RunResume, h, and_self, if_true]

theorem RunResume_namespace {σ : Type} (p : Pipeline σ) (o : ResumeConfig σ) (f : Factory σ)
    (cmd : Command) (out : Writer) (args : List String) (w : World σ)
    (h : ¬ (args.length = 0 ∧ o.Filenames.length = 0)) (e : Error)
    (hns : (f.DefaultNamespace w.ext).1.2.2 = some e) :
    RunResume p o f cmd out args w =
      { err := some e, config := setupConfig o f out, out := out,
        world := namespaceWorld f w, resolved := [], visited := [], returns := [] } := by
  simp only [RunResume, h, if_false, hns]
  rfl

theorem RunResume_fatal {σ : Type} (p : Pipeline σ) (o : ResumeConfig σ) (f : Factory σ)
    (cmd : Command) (out : Writer) (args : List String) (w : World σ)
    (h : ¬ (args.length = 0 ∧ o.Filenames.length = 0))
    (hns : (f.DefaultNamespace w.ext).1.2.2 = none) (e : Error)
    (hr : (setupResult p o f out args w).Err = some e) :
    RunResume p o f cmd out args w =
      { err := some e, config := setupConfig o f out, out := out,
        world := ((setupBuilder o f out args w).Do p (namespaceWorld f w)).2,
        resolved := [], visited := [], returns := [] } := by
  simp only [setupResult, setupBuilder, setupConfig, namespaceWorld] at hr
  simp only [RunResume, h, if_false, hns, hr]
  rfl

theorem RunResume_visit {σ : Type} (p : Pipeline σ) (o : ResumeConfig σ) (f : Factory σ)
    (cmd : Command) (out : Writer) (args : List String) (w : World σ)
    (h : ¬ (args.length = 0 ∧ o.Filenames.length = 0))
    (hns : (f.DefaultNamespace w.ext).1.2.2 = none)
    (hr : (setupResult p o f out args w).Err = none) :
    RunResume p o f cmd out args w =
      { err := aggregate (setupVisit p o f out args w).errs,
        config := (setupVisit p o f out args w).state,
        out := (setupVisit p o f out args w).state.Out,
        world := (setupVisit p o f out args w).world,
        resolved := (setupVisit p o f out args w).resolved,
        visited := (setupVisit p o f out args w).visited,
        returns := (setupVisit p o f out args w).returns } := by
  have hb := Do_builder (setupBuilder o f out args w) p (namespaceWorld f w)
  have hr2 : (setupResult p o f out args w).err = none := hr
  simp only [setupVisit, setupResult, setupBuilder, setupConfig, namespaceWorld] at hr hr2 hb ⊢
  simp only [RunResume, h, if_false, hns, hr, Result.Visit, hr2, hb,
    resumeBuilder_continueOnError, if_true]
  split <;> simp_all

theorem Sound.config {σ : Type} {o c : ResumeConfig σ} {w : World σ}
    {v : Visited (ResumeConfig σ) σ} (ho : c.Out = o.Out) (h : Sound c w v) :
    Sound o w v :=
  ⟨h.rets, h.errs, h.trace, by rw [← ho]; exact h.out⟩

theorem setupVisit_sound {σ : Type} (p : Pipeline σ) (o : ResumeConfig σ) (f : Factory σ)
    (out : Writer) (args : List String) (w : World σ) :
    Sound { o with Out := out } w (setupVisit p o f out args w) := by
  have h := visitRefs_sound p (setupBuilder o f out args w) rfl
    (setupResult p o f out args w).refs (setupConfig o f out)
    ((setupBuilder o f out args w).Do p (namespaceWorld f w)).2
  refine Sound.config (c := setupConfig o f out) rfl ?_
  refine Sound.events [Event.defaultNamespace, Event.referenceSet] ?_ rfl rfl h
  rw [Do_trace]
  simp [namespaceWorld]

theorem RunResume_sound {σ : Type} (p : Pipeline σ) (o : ResumeConfig σ) (f : Factory σ)
    (cmd : Command) (out : Writer) (args : List String) (w : World σ) :
    Sound { o with Out := out } w (RunResume p o f cmd out args w).toVisited := by
  by_cases h : args.length = 0 ∧ o.Filenames.length = 0
  · rw [RunResume_usage p o f cmd out args w h]
    exact Sound.nil _ _ _
  · cases hns : (f.DefaultNamespace w.ext).1.2.2 with
    | some e =>
      rw [RunResume_namespace p o f cmd out args w h e hns]
      refine Sound.events (u := namespaceWorld f w) [Event.defaultNamespace] rfl rfl rfl ?_
      refine Sound.config (c := { setupConfig o f out with Out := out }) rfl ?_
      exact Sound.nil _ _ _
    | none =>
      cases hr : (setupResult p o f out args w).Err with
      | some e =>
        rw [RunResume_fatal p o f cmd out args w h hns e hr]
        refine Sound.events
          (u := ((setupBuilder o f out args w).Do p (namespaceWorld f w)).2)
          [Event.defaultNamespace, Event.referenceSet] ?_ rfl rfl ?_
        · rw [Do_trace]
          simp [namespaceWorld]
        · refine Sound.config (c := { setupConfig o f out with Out := out }) rfl ?_
          exact Sound.nil _ _ _
      | none =>
        rw [RunResume_visit p o f cmd out args w h hns hr]
        have hs := setupVisit_sound p o f out args w
        exact ⟨hs.rets, rfl, by simpa [RunResult.toVisited, ← hs.errs] using hs.trace, hs.out⟩

/-! ## Further lemmas -/

theorem string_append_left_cancel (a b c : String) (h : a ++ b = a ++ c) : b = c := by
  have h1 := congrArg String.data h
  simp only [String.data_append] at h1
  exact String.ext (List.append_cancel_left h1)

theorem reported_sublist (es : List Entry) (rs : List (Option Error))
    (h : List.Forall₂ (fun e r => ∀ err, e = Entry.failed err → r = some err) es rs) :
    List.Sublist ((reported es rs).map Entry.resolved) es := by
  induction h with
  | nil => simp [reported]
  | @cons e r es rs hr _ ih =>
    cases r with
    | some x => exact List.Sublist.cons _ (by simpa [reported] using ih)
    | none =>
      cases e with
      | failed err => exact absurd (hr err rfl) (by simp)
      | resolved i =>
        simp only [reported, Entry.info, List.map_cons]
        exact List.Sublist.cons₂ _ ih

theorem reported_length (es : List Entry) (rs : List (Option Error))
    (h : rs.length = es.length) :
    (reported es rs).length + rs.reduceOption.length = es.length := by
  induction es generalizing rs with
  | nil =>
    cases rs with
    | nil => simp [reported]
    | cons r rs => simp at h
  | cons e es ih =>
    cases rs with
    | nil => simp at h
    | cons r rs =>
      have h1 : rs.length = es.length := by simpa using h
      have := ih rs h1
      cases r with
      | none => simp [reported, List.reduceOption_cons_of_none]; omega
      | some x => simp [reported, List.reduceOption_cons_of_some]; omega

theorem FlattenEntry_singular (e x : Entry) (hx : x ∈ FlattenEntry e) :
    x.singular := by
  cases e with
  | failed err =>
    simp only [FlattenEntry, List.mem_singleton] at hx
    subst hx
    trivial
  | resolved i =>
    simp only [FlattenEntry] at hx
    split at hx
    · next d hd =>
      simp only [List.mem_singleton] at hx
      subst hx
      exact ⟨d, hd⟩
    · next items hitems =>
      simp only [List.mem_map] at hx
      obtain ⟨m, -, rfl⟩ := hx
      exact ⟨m.data, rfl⟩

theorem RunResume_visited_flat {σ : Type} (p : Pipeline σ) (o : ResumeConfig σ)
    (f : Factory σ) (cmd : Command) (out : Writer) (args : List String) (w : World σ) :
    (RunResume p o f cmd out args w).visited
      = (RunResume p o f cmd out args w).resolved.flatMap FlattenEntry := by
  by_cases h : args.length = 0 ∧ o.Filenames.length = 0
  · rw [RunResume_usage p o f cmd out args w h]
    rfl
  · cases hns : (f.DefaultNamespace w.ext).1.2.2 with
    | some e =>
      rw [RunResume_namespace p o f cmd out args w h e hns]
      rfl
    | none =>
      cases hr : (setupResult p o f out args w).Err with
      | some e =>
        rw [RunResume_fatal p o f cmd out args w h hns e hr]
        rfl
      | none =>
        rw [RunResume_visit p o f cmd out args w h hns hr]
        have hv := visitRefs_visited p (setupBuilder o f out args w) rfl resumeVisitor
          (setupResult p o f out args w).refs (setupConfig o f out)
          ((setupBuilder o f out args w).Do p (namespaceWorld f w)).2
        have hfl : (setupBuilder o f out args w).flatten = true := rfl
        simp only [hfl, if_true] at hv
        exact hv

theorem RunResume_returns_nil {σ : Type} (p : Pipeline σ) (o : ResumeConfig σ)
    (f : Factory σ) (cmd : Command) (out : Writer) (args : List String) (w : World σ)
    (h : (args.length = 0 ∧ o.Filenames.length = 0) ∨
      (f.DefaultNamespace w.ext).1.2.2 ≠ none ∨ (setupResult p o f out args w).Err ≠ none) :
    (RunResume p o f cmd out args w).err ≠ none ∧
    (RunResume p o f cmd out args w).returns = [] ∧
    (RunResume p o f cmd out args w).resolved = [] := by
  by_cases h0 : args.length = 0 ∧ o.Filenames.length = 0
  · rw [RunResume_usage p o f cmd out args w h0]
    simp
  · cases hns : (f.DefaultNamespace w.ext).1.2.2 with
    | some e =>
      rw [RunResume_namespace p o f cmd out args w h0 e hns]
      simp
    | none =>
      cases hr : (setupResult p o f out args w).Err with
      | some e =>
        rw [RunResume_fatal p o f cmd out args w h0 hns e hr]
        simp
      | none =>
        rcases h with h | h | h
        · exact absurd h h0
        · exact absurd hns h
        · exact absurd hr h

theorem aggregate_ne_none (l : List Error) : aggregate l ≠ none ↔ l ≠ [] := by
  cases l <;> simp [aggregate]

theorem some_mem_iff (rs : List (Option Error)) :
    (∃ e, some e ∈ rs) ↔ rs.reduceOption ≠ [] := by
  constructor
  · rintro ⟨e, he⟩ h
    have := List.reduceOption_mem_iff.mpr he
    simp [h] at this
  · intro h
    obtain ⟨e, he⟩ := List.exists_mem_of_ne_nil _ h
    exact ⟨e, List.reduceOption_mem_iff.mp he⟩

/-! ## What the visit reports -/

theorem answers_append (a b : List Event) : answers (a ++ b) = answers a ++ answers b := by
  induction a with
  | nil => rfl
  | cons x t ih =>
    cases x with
    | resumeObject obj al err => cases err <;> simp [answers, ih]
    | _ => simp [answers, ih]

theorem printed_append (a b : List Event) : printed (a ++ b) = printed a ++ printed b := by
  induction a with
  | nil => rfl
  | cons x t ih => cases x <;> simp [printed, ih]

theorem Reports.start {σ : Type} (o : ResumeConfig σ) (w : World σ) (rs : List Entry) :
    Reports o w { errs := [], resolved := rs, visited := [], returns := [], state := o,
                  world := w } :=
  ⟨[], by simp, by simp [answers, reported], by simp [reported], by simp [printed, reported]⟩

theorem Reports.concat {σ : Type} {o : ResumeConfig σ} {w : World σ}
    {v1 v2 : Visited (ResumeConfig σ) σ} (rs : List Entry) (es : List Error)
    (hlen : v1.returns.length = v1.visited.length)
    (h1 : Reports o w v1) (h2 : Reports v1.state v1.world v2) :
    Reports o w { errs := es, resolved := rs,
                  visited := v1.visited ++ v2.visited, returns := v1.returns ++ v2.returns,
                  state := v2.state, world := v2.world } := by
  obtain ⟨evs1, at1, al1, ao1, ap1⟩ := h1
  obtain ⟨evs2, bt1, bl1, bo1, bp1⟩ := h2
  refine ⟨evs1 ++ evs2, ?_, ?_, ?_, ?_⟩
  · simp [bt1, at1]
  · simp [answers_append, reported_append _ _ _ _ hlen, al1, bl1]
  · simp only [answers_append, reported_append _ _ _ _ hlen, bo1, ao1,
      List.zipWith_append _ _ _ _ _ al1.symm, List.append_assoc]
  · simp only [answers_append, printed_append, reported_append _ _ _ _ hlen, ap1, bp1,
      List.zipWith_append _ _ _ _ _ al1.symm]

theorem Reports.afterEvents {σ : Type} {o : ResumeConfig σ} {w u : World σ}
    {v : Visited (ResumeConfig σ) σ} (evs : List Event) (hw : u.trace = w.trace ++ evs)
    (hans : answers evs = []) (hpr : printed evs = []) (h : Reports o u v) :
    Reports o w v := by
  obtain ⟨evs1, at1, al1, ao1, ap1⟩ := h
  refine ⟨evs ++ evs1, ?_, ?_, ?_, ?_⟩
  · simp [at1, hw]
  · simp [answers_append, hans, al1]
  · simp [answers_append, hans, ao1]
  · simp [answers_append, printed_append, hans, hpr, ap1]

theorem Reports.sameSink {σ : Type} {o c : ResumeConfig σ} {w : World σ}
    {v : Visited (ResumeConfig σ) σ} (ho : c.Out = o.Out) (h : Reports c w v) :
    Reports o w v := by
  obtain ⟨evs1, at1, al1, ao1, ap1⟩ := h
  exact ⟨evs1, at1, al1, by rw [← ho]; exact ao1, ap1⟩

theorem Reports.step {σ : Type} {o c : ResumeConfig σ} {w u : World σ}
    (e : Entry) (r : Option Error) (evs : List Event) (rs : List Entry) (es : List Error)
    (hw : u.trace = w.trace ++ evs)
    (hlen : (answers evs).length = (reported [e] [r]).length)
    (ho : c.Out = o.Out ++ List.zipWith statusLine (reported [e] [r]) (answers evs))
    (hp : printed evs = List.zipWith printCall (reported [e] [r]) (answers evs)) :
    Reports o w { errs := es, resolved := rs, visited := [e], returns := [r], state := c,
                  world := u } :=
  ⟨evs, hw, hlen, ho, hp⟩

theorem visitEntries_reports {σ : Type} (es : List Entry) (o : ResumeConfig σ)
    (w : World σ) : Reports o w (visitEntries true resumeVisitor es o w) := by
  induction es generalizing o w with
  | nil => exact Reports.start o w []
  | cons e es ih =>
    cases e with
    | failed err =>
      simp only [visitEntries, Entry.info, Entry.err, resumeVisitor_err, if_true]
      exact Reports.concat _ _ (by rfl)
        (Reports.step (Entry.failed err) (some err) [] [] [] (by simp)
          (by simp [answers, reported]) (by simp [reported]) (by simp [printed, reported]))
        (ih o w)
    | resolved i =>
      cases hres : (o.ResumeObject i.Object w.ext).1.2 with
      | some err =>
        simp only [visitEntries, Entry.info, Entry.err, resumeVisitor_action_err i o w err hres,
          if_true]
        exact Reports.concat _ _ (by rfl)
          (Reports.step (Entry.resolved i) (some err)
            [Event.resumeObject i.Object (o.ResumeObject i.Object w.ext).1.1 (some err)]
            [] [] rfl (by simp [answers, reported]) (by simp [reported])
            (by simp [printed, reported]))
          (ih _ _)
      | none =>
        simp only [visitEntries, Entry.info, Entry.err, resumeVisitor_ok i o w hres]
        exact Reports.concat _ _ (by rfl)
          (Reports.step (Entry.resolved i) none
            [Event.resumeObject i.Object (o.ResumeObject i.Object w.ext).1.1 none,
              Event.printSuccess false i.Mapping.Resource i.Name
                (statusPhrase (o.ResumeObject i.Object w.ext).1.1)]
            [] [] rfl (by simp [answers, reported])
            (by simp [answers, reported, Entry.info])
            (by simp [answers, printed, reported, Entry.info, printCall]))
          (ih _ _)

theorem visitRefs_reports {σ : Type} (p : Pipeline σ) (b : Builder)
    (hb : b.continueOnError = true) (refs : List ResourceReference) (o : ResumeConfig σ)
    (w : World σ) : Reports o w (visitRefs p b resumeVisitor refs o w) := by
  induction refs generalizing o w with
  | nil => exact Reports.start o w []
  | cons ref refs ih =>
    simp only [visitRefs, hb, Bool.not_true, Bool.false_and, Bool.false_eq_true, if_false]
    refine Reports.concat _ _ (visitEntries_sound _ _ _).rets.length_eq.symm ?_ (ih _ _)
    exact Reports.afterEvents [Event.resolve ref] rfl rfl rfl (visitEntries_reports _ _ _)

theorem RunResume_reports {σ : Type} (p : Pipeline σ) (o : ResumeConfig σ) (f : Factory σ)
    (cmd : Command) (out : Writer) (args : List String) (w : World σ) :
    Reports { o with Out := out } w (RunResume p o f cmd out args w).toVisited := by
  by_cases h : args.length = 0 ∧ o.Filenames.length = 0
  · rw [RunResume_usage p o f cmd out args w h]
    exact Reports.start _ _ _
  · cases hns : (f.DefaultNamespace w.ext).1.2.2 with
    | some e =>
      rw [RunResume_namespace p o f cmd out args w h e hns]
      refine Reports.afterEvents (u := namespaceWorld f w) [Event.defaultNamespace] rfl rfl rfl ?_
      refine Reports.sameSink (c := { setupConfig o f out with Out := out }) rfl ?_
      exact Reports.start _ _ _
    | none =>
      cases hr : (setupResult p o f out args w).Err with
      | some e =>
        rw [RunResume_fatal p o f cmd out args w h hns e hr]
        refine Reports.afterEvents
          (u := ((setupBuilder o f out args w).Do p (namespaceWorld f w)).2)
          [Event.defaultNamespace, Event.referenceSet] ?_ rfl rfl ?_
        · rw [Do_trace]
          simp [namespaceWorld]
        · refine Reports.sameSink (c := { setupConfig o f out with Out := out }) rfl ?_
          exact Reports.start _ _ _
      | none =>
        rw [RunResume_visit p o f cmd out args w h hns hr]
        have hv := visitRefs_reports p (setupBuilder o f out args w) rfl
          (setupResult p o f out args w).refs (setupConfig o f out)
          ((setupBuilder o f out args w).Do p (namespaceWorld f w)).2
        refine Reports.sameSink (c := setupConfig o f out) rfl ?_
        refine Reports.afterEvents (u := ((setupBuilder o f out args w).Do p
          (namespaceWorld f w)).2) [Event.defaultNamespace, Event.referenceSet] ?_ rfl rfl ?_
        · rw [Do_trace]
          simp [namespaceWorld]
        · obtain ⟨evs, h1, h2, h3, h4⟩ := hv
          exact ⟨evs, h1, h2, h3, h4⟩

/-! ## Properties of `RunResume` -/

/-- C1: with no positional argument and no filename `RunResume` returns the
usage error (`InvalidArgument`) and nothing else has happened: the config, the
sink and the world are as they were, so no namespace lookup, no resolution, no
call of the action function and no output.  In every other case the validation
lets the input through: the namespace lookup is made, as the first call. -/
theorem RunResume_no_source {σ : Type} (p : Pipeline σ) (o : ResumeConfig σ) (f : Factory σ)
    (cmd : Command) (out : Writer) (args : List String) (w : World σ) :
    (args = [] ∧ o.Filenames = [] →
      RunResume p o f cmd out args w =
        { err := some (UsageError cmd cmd.Use), config := o, out := out,
          world := w, resolved := [], visited := [], returns := [] }) ∧
    (¬ (args = [] ∧ o.Filenames = []) →
      ∃ evs, (RunResume p o f cmd out args w).world.trace
        = w.trace ++ Event.defaultNamespace :: evs) := by
  constructor
  · rintro ⟨ha, hf⟩
    exact RunResume_usage p o f cmd out args w (by simp [ha, hf])
  · intro h
    have h1 : ¬ (args.length = 0 ∧ o.Filenames.length = 0) := by
      simpa [List.length_eq_zero] using h
    cases hns : (f.DefaultNamespace w.ext).1.2.2 with
    | some e =>
      rw [RunResume_namespace p o f cmd out args w h1 e hns]
      exact ⟨[], rfl⟩
    | none =>
      cases hr : (setupResult p o f out args w).Err with
      | some e =>
        rw [RunResume_fatal p o f cmd out args w h1 hns e hr]
        refine ⟨[Event.referenceSet], ?_⟩
        simp [Do_trace, namespaceWorld]
      | none =>
        rw [RunResume_visit p o f cmd out args w h1 hns hr]
        obtain ⟨evs, hev, -⟩ := (visitRefs_sound p (setupBuilder o f out args w) rfl
          (setupResult p o f out args w).refs (setupConfig o f out)
          ((setupBuilder o f out args w).Do p (namespaceWorld f w)).2).trace
        refine ⟨Event.referenceSet :: evs, ?_⟩
        rw [Do_trace] at hev
        simp only [setupVisit, hev]
        simp [namespaceWorld]

/-- Witness of C1 on the instance: no argument gives the usage error with an
empty trace, one argument gets past the validation. -/
theorem RunResume_no_source_witness :
    (demoRun []).err = some (Error.mk ErrorKind.InvalidArgument "resume RESOURCE") ∧
    (demoRun []).world.trace = [] ∧ (demoRun []).out = [] ∧
    (demoRun ["deployments/a"]).world.trace.take 1 = [Event.defaultNamespace] :=
  ⟨congrArg RunResult.err
      ((RunResume_no_source demoPipeline demoConfig demoFactory ⟨"resume RESOURCE"⟩ [] []
        demoWorld).1 ⟨rfl, rfl⟩),
    rfl, rfl,
    Exists.elim
      ((RunResume_no_source demoPipeline demoConfig demoFactory ⟨"resume RESOURCE"⟩ []
        ["deployments/a"] demoWorld).2 (by simp [demoConfig]))
      (fun _ h => by rw [show (demoRun ["deployments/a"]).world.trace = _ from h]; rfl)⟩

/-- C4: when the result of the builder chain carries a fatal error, `RunResume`
returns exactly that error; nothing is visited, the only collaborator calls
made are the namespace lookup and the normalisation of the references (no
fetch or decode, no call of the action function), and the sink is as it was. -/
theorem RunResume_fatal_short_circuit {σ : Type} (p : Pipeline σ) (o : ResumeConfig σ)
    (f : Factory σ) (cmd : Command) (out : Writer) (args : List String) (w : World σ)
    (e : Error) (h : ¬ (args = [] ∧ o.Filenames = []))
    (hns : (f.DefaultNamespace w.ext).1.2.2 = none)
    (hr : (setupResult p o f out args w).Err = some e) :
    (RunResume p o f cmd out args w).err = some e ∧
    (RunResume p o f cmd out args w).visited = [] ∧
    (RunResume p o f cmd out args w).returns = [] ∧
    (RunResume p o f cmd out args w).world.trace
      = w.trace ++ [Event.defaultNamespace, Event.referenceSet] ∧
    applied (RunResume p o f cmd out args w).world.trace = applied w.trace ∧
    (RunResume p o f cmd out args w).out = out := by
  have h1 : ¬ (args.length = 0 ∧ o.Filenames.length = 0) := by
    simpa [List.length_eq_zero] using h
  rw [RunResume_fatal p o f cmd out args w h1 hns e hr]
  have ht : ((setupBuilder o f out args w).Do p (namespaceWorld f w)).2.trace
      = w.trace ++ [Event.defaultNamespace, Event.referenceSet] := by
    simp [Do_trace, namespaceWorld]
  refine ⟨rfl, rfl, rfl, ht, ?_, rfl⟩
  simp only [ht, applied_append]
  simp [applied]

/-- Witness of C4 on the instance: one malformed reference among five
well-formed ones; the error is the malformed reference, the action function is
not invoked and nothing is written. -/
theorem RunResume_fatal_short_circuit_witness :
    (demoRun ["deployments/a", "deployments/b", "x//y", "deployments/c", "deployments/d",
        "deployments/web"]).err = some (Error.mk ErrorKind.MalformedReference "x//y") ∧
    applied (demoRun ["deployments/a", "deployments/b", "x//y", "deployments/c",
        "deployments/d", "deployments/web"]).world.trace = [] ∧
    (demoRun ["deployments/a", "deployments/b", "x//y", "deployments/c", "deployments/d",
        "deployments/web"]).out = [] :=
  have h := RunResume_fatal_short_circuit demoPipeline demoConfig demoFactory
    ⟨"resume RESOURCE"⟩ [] ["deployments/a", "deployments/b", "x//y", "deployments/c",
      "deployments/d", "deployments/web"] demoWorld
    (Error.mk ErrorKind.MalformedReference "x//y") (by simp) rfl rfl
  ⟨h.1, h.2.2.2.2.1, h.2.2.2.2.2⟩

/-- C10: the callback hands errors on as they are.  Given a resolution error
it returns that error and does nothing else: the config and the world are
unchanged, so the action function is not invoked and nothing is written.
Without one, it returns what the action function returned as error, an error
unchanged and nil only for nil; an error of the action function leaves the
sink as it was. -/
theorem resumeVisitor_returns_error {σ : Type} (info : Info) (o : ResumeConfig σ)
    (w : World σ) :
    (∀ e, resumeVisitor info (some e) o w = (some e, o, w)) ∧
    (resumeVisitor info none o w).1 = (o.ResumeObject info.Object w.ext).1.2 ∧
    (∀ e, (o.ResumeObject info.Object w.ext).1.2 = some e →
      (resumeVisitor info none o w).1 = some e ∧
      (resumeVisitor info none o w).2.1.Out = o.Out ∧
      (resumeVisitor info none o w).2.2.trace
        = w.trace ++ [Event.resumeObject info.Object
            (o.ResumeObject info.Object w.ext).1.1 (some e)]) := by
  refine ⟨fun e => rfl, ?_, ?_⟩
  · cases hres : (o.ResumeObject info.Object w.ext).1.2 with
    | some e => rw [resumeVisitor_action_err info o w e hres]
    | none => rw [resumeVisitor_ok info o w hres]
  · intro e hres
    rw [resumeVisitor_action_err info o w e hres]
    exact ⟨rfl, rfl, rfl⟩

/-- Witness of C10 on the instance: the action function fails on `broken`, and
the callback returns that error and writes nothing. -/
theorem resumeVisitor_returns_error_witness :
    (resumeVisitor (demoInfo "broken") none (setupConfig demoConfig demoFactory [])
        demoWorld).1 = some (Error.mk ErrorKind.ActionError "broken") ∧
    (resumeVisitor (demoInfo "broken") none (setupConfig demoConfig demoFactory [])
        demoWorld).2.1.Out = [] :=
  have h := (resumeVisitor_returns_error (demoInfo "broken")
    (setupConfig demoConfig demoFactory []) demoWorld).2.2
    (Error.mk ErrorKind.ActionError "broken") rfl
  ⟨h.1, h.2.1⟩

/-- C7: on a resolved entry for which the action function returns no error,
the callback returns nil and reports the object once, by one call of
`PrintSuccess` with the entry's `Mapping.Resource` and `Name`: with the phrase
"already resumed" when the action function returned true, with "resumed" when
it returned false.  The two reports of an object differ, so the outcomes can be
told apart in the output, and one line is added to the sink. -/
theorem resumeVisitor_status_phrase {σ : Type} (info : Info) (o : ResumeConfig σ)
    (w : World σ) (h : (o.ResumeObject info.Object w.ext).1.2 = none) :
    (resumeVisitor info none o w).1 = none ∧
    ((o.ResumeObject info.Object w.ext).1.1 = true →
      (resumeVisitor info none o w).2.1.Out
        = PrintSuccess o.Mapper false o.Out info.Mapping.Resource info.Name
            "already resumed") ∧
    ((o.ResumeObject info.Object w.ext).1.1 = false →
      (resumeVisitor info none o w).2.1.Out
        = PrintSuccess o.Mapper false o.Out info.Mapping.Resource info.Name "resumed") ∧
    PrintSuccess o.Mapper false o.Out info.Mapping.Resource info.Name "already resumed"
      ≠ PrintSuccess o.Mapper false o.Out info.Mapping.Resource info.Name "resumed" ∧
    (resumeVisitor info none o w).2.1.Out.length = o.Out.length + 1 ∧
    applied (resumeVisitor info none o w).2.2.trace = applied w.trace ++ [info.Object] := by
  rw [resumeVisitor_ok info o w h]
  refine ⟨rfl, ?_, ?_, ?_, ?_, ?_⟩
  · intro hb
    simp [hb, PrintSuccess, statusLine, statusPhrase]
  · intro hb
    simp [hb, PrintSuccess, statusLine, statusPhrase]
  · intro heq
    simp only [PrintSuccess, List.append_cancel_left_eq, List.cons.injEq, and_true] at heq
    have := string_append_left_cancel _ _ _ heq
    exact absurd this (by decide)
  · simp
  · simp [applied_append, applied]

/-- Witness of C7 on the instance: `a` is paused and is reported as resumed,
`b` is not and is reported as already resumed. -/
theorem resumeVisitor_status_phrase_witness :
    (resumeVisitor (demoInfo "a") none (setupConfig demoConfig demoFactory [])
        demoWorld).2.1.Out = ["deployments/a resumed"] ∧
    (resumeVisitor (demoInfo "b") none (setupConfig demoConfig demoFactory [])
        demoWorld).2.1.Out = ["deployments/b already resumed"] :=
  ⟨(resumeVisitor_status_phrase (demoInfo "a") (setupConfig demoConfig demoFactory [])
      demoWorld rfl).2.2.1 (by decide),
   (resumeVisitor_status_phrase (demoInfo "b") (setupConfig demoConfig demoFactory [])
      demoWorld rfl).2.1 (by decide)⟩

/-- C5: every entry handed to the callback gets one outcome, in order: the
callback returned once per entry; the action function was invoked on the
payloads of the resolved entries, once each and in the order of the entries;
and the lines added to the sink are status lines of the entries that did not
fail, one each, in the order of the entries. -/
theorem RunResume_outcomes_in_order {σ : Type} (p : Pipeline σ) (o : ResumeConfig σ)
    (f : Factory σ) (cmd : Command) (out : Writer) (args : List String) (w : World σ) :
    (RunResume p o f cmd out args w).returns.length
      = (RunResume p o f cmd out args w).visited.length ∧
    (∃ evs, (RunResume p o f cmd out args w).world.trace = w.trace ++ evs ∧
      applied evs = (RunResume p o f cmd out args w).visited.filterMap Entry.payload) ∧
    (∃ L, (RunResume p o f cmd out args w).out = out ++ L ∧
      List.Forall₂ IsLineOf
        (reported (RunResume p o f cmd out args w).visited
          (RunResume p o f cmd out args w).returns) L) ∧
    List.Sublist
      ((reported (RunResume p o f cmd out args w).visited
          (RunResume p o f cmd out args w).returns).map Entry.resolved)
      (RunResume p o f cmd out args w).visited := by
  have hs := RunResume_sound p o f cmd out args w
  obtain ⟨evs, ht, ha, -⟩ := hs.trace
  exact ⟨hs.rets.length_eq.symm, ⟨evs, ht, ha⟩, hs.out, reported_sublist _ _ hs.rets⟩

/-- Witness of C5 on the instance: three objects, the second paused no more
when its turn comes. -/
theorem RunResume_outcomes_in_order_witness :
    (demoRun ["deployments/a", "deployments/a", "deployments/c"]).returns.length = 3 ∧
    (demoRun ["deployments/a", "deployments/a", "deployments/c"]).out
      = ["deployments/a resumed", "deployments/a already resumed",
         "deployments/c resumed"] ∧
    (demoRun ["deployments/a", "deployments/a", "deployments/c"]).returns.length
      = (demoRun ["deployments/a", "deployments/a", "deployments/c"]).visited.length :=
  ⟨rfl, rfl, (RunResume_outcomes_in_order demoPipeline demoConfig demoFactory
    ⟨"resume RESOURCE"⟩ [] ["deployments/a", "deployments/a", "deployments/c"] demoWorld).1⟩

/-- C6, as stated, fails: on the instance three entries are processed, of which
the action function fails on the second and the third is not found, and one
line is written, not three. -/
theorem RunResume_line_per_entry_fails :
    (demoRun ["deployments/a", "deployments/broken", "deployments/missing"]).visited.length
      = 3 ∧
    (demoRun ["deployments/a", "deployments/broken", "deployments/missing"]).out
      = ["deployments/a resumed"] ∧
    ¬ ((demoRun ["deployments/a", "deployments/broken", "deployments/missing"]).out.length
      = (demoRun ["deployments/a", "deployments/broken",
          "deployments/missing"]).visited.length) :=
  ⟨rfl, rfl, by decide⟩

/-- C6, amended: `RunResume` adds one line to the sink for every processed
entry that did not fail and none for an entry that failed: the lines added and
the failed entries (resolution errors and errors of the action function) add
up to the entries processed. -/
theorem RunResume_line_per_success {σ : Type} (p : Pipeline σ) (o : ResumeConfig σ)
    (f : Factory σ) (cmd : Command) (out : Writer) (args : List String) (w : World σ) :
    ∃ L evs, (RunResume p o f cmd out args w).out = out ++ L ∧
      (RunResume p o f cmd out args w).world.trace = w.trace ++ evs ∧
      L.length = (reported (RunResume p o f cmd out args w).visited
          (RunResume p o f cmd out args w).returns).length ∧
      L.length + ((entryErrors (RunResume p o f cmd out args w).visited).length
          + (actionErrors evs).length)
        = (RunResume p o f cmd out args w).visited.length := by
  have hs := RunResume_sound p o f cmd out args w
  obtain ⟨evs, ht, -, hc⟩ := hs.trace
  obtain ⟨L, hL, hF⟩ := hs.out
  refine ⟨L, evs, hL, ht, hF.length_eq.symm, ?_⟩
  have h1 := reported_length _ _ hs.rets.length_eq.symm
  have h2 := hF.length_eq
  simp only [RunResult.toVisited] at hc h1 h2
  omega

/-- C8: every object `RunResume` reports gets its own line of the form
`<type>/<name> <status-phrase>`.  The objects reported are the visited entries
that did not fail, in order.  The k-th of them is reported by the k-th call of
`PrintSuccess`, made with `shortOutput = false`, that object's
`Mapping.Resource`, its `Name`, and the phrase "already resumed" or "resumed"
according to what the action function answered on it; and the k-th line added
to the sink is that object's resource, a slash, its name, a blank and that
phrase.  Nothing else is added to the sink. -/
theorem RunResume_line_format {σ : Type} (p : Pipeline σ) (o : ResumeConfig σ)
    (f : Factory σ) (cmd : Command) (out : Writer) (args : List String) (w : World σ) :
    ∃ evs, (RunResume p o f cmd out args w).world.trace = w.trace ++ evs ∧
      (answers evs).length
        = (reported (RunResume p o f cmd out args w).visited
            (RunResume p o f cmd out args w).returns).length ∧
      (RunResume p o f cmd out args w).out
        = out ++ List.zipWith
            (fun (i : Info) (b : Bool) =>
              i.Mapping.Resource ++ "/" ++ i.Name ++ " "
                ++ (if b = true then "already resumed" else "resumed"))
            (reported (RunResume p o f cmd out args w).visited
              (RunResume p o f cmd out args w).returns) (answers evs) ∧
      printed evs
        = List.zipWith
            (fun (i : Info) (b : Bool) =>
              (false, i.Mapping.Resource, i.Name,
                if b = true then "already resumed" else "resumed"))
            (reported (RunResume p o f cmd out args w).visited
              (RunResume p o f cmd out args w).returns) (answers evs) ∧
      List.Sublist
        ((reported (RunResume p o f cmd out args w).visited
            (RunResume p o f cmd out args w).returns).map Entry.resolved)
        (RunResume p o f cmd out args w).visited := by
  obtain ⟨evs, ht, hl, ho, hp⟩ := RunResume_reports p o f cmd out args w
  exact ⟨evs, ht, hl, ho, hp,
    reported_sublist _ _ (RunResume_sound p o f cmd out args w).rets⟩

/-- Witness of C8 on the instance: `a` is resumed, the action function fails on
`broken`, `b` is already resumed; two calls of `PrintSuccess` are made, for `a`
and for `b`, and their two lines are what the sink holds. -/
theorem RunResume_line_format_witness :
    (demoRun ["deployments/a", "deployments/broken", "deployments/b"]).out
      = ["deployments/a resumed", "deployments/b already resumed"] ∧
    printed (demoRun ["deployments/a", "deployments/broken", "deployments/b"]).world.trace
      = [(false, "deployments", "a", "resumed"),
         (false, "deployments", "b", "already resumed")] :=
  Exists.elim
    (RunResume_line_format demoPipeline demoConfig demoFactory ⟨"resume RESOURCE"⟩ []
      ["deployments/a", "deployments/broken", "deployments/b"] demoWorld)
    (fun evs h => by
      have ht : (demoRun ["deployments/a", "deployments/broken",
          "deployments/b"]).world.trace = evs := h.1
      subst ht
      exact ⟨h.2.2.1.trans rfl, h.2.2.2.1.trans rfl⟩)

/-- C2: a failure does not stop the batch.  When the outcome at position `i`
is a failure (a resolution error, or an error of the action function), every
reference has still been resolved, every entry the flattening yields has been
handed to the callback and has its outcome, and the action function has been
invoked on the payload of every resolved entry after position `i`. -/
theorem RunResume_continues_on_error {σ : Type} (p : Pipeline σ) (o : ResumeConfig σ)
    (f : Factory σ) (cmd : Command) (out : Writer) (args : List String) (w : World σ)
    (i : Nat) (e : Error)
    (hfail : (RunResume p o f cmd out args w).returns[i]? = some (some e)) :
    (RunResume p o f cmd out args w).resolved.length
      = (setupResult p o f out args w).refs.length ∧
    (RunResume p o f cmd out args w).visited
      = (RunResume p o f cmd out args w).resolved.flatMap FlattenEntry ∧
    (RunResume p o f cmd out args w).returns.length
      = (RunResume p o f cmd out args w).visited.length ∧
    ∃ evs pre, (RunResume p o f cmd out args w).world.trace = w.trace ++ evs ∧
      applied evs = pre ++
        ((RunResume p o f cmd out args w).visited.drop (i + 1)).filterMap Entry.payload := by
  have hs := RunResume_sound p o f cmd out args w
  obtain ⟨evs, ht, ha, -⟩ := hs.trace
  refine ⟨?_, RunResume_visited_flat p o f cmd out args w, hs.rets.length_eq.symm,
    ⟨evs, ((RunResume p o f cmd out args w).visited.take (i + 1)).filterMap Entry.payload,
      ht, ?_⟩⟩
  · by_cases h : (args.length = 0 ∧ o.Filenames.length = 0) ∨
        (f.DefaultNamespace w.ext).1.2.2 ≠ none ∨ (setupResult p o f out args w).Err ≠ none
    · rw [(RunResume_returns_nil p o f cmd out args w h).2.1] at hfail
      simp at hfail
    · simp only [not_or, not_not] at h
      rw [RunResume_visit p o f cmd out args w h.1 h.2.1 h.2.2]
      exact visitRefs_resolved_length p (setupBuilder o f out args w) rfl resumeVisitor _ _ _
  · rw [← List.filterMap_append, List.take_append_drop]
    exact ha

/-- Witness of C2 on the instance: three references of which the second is
not found give the outcomes applied, failed, applied. -/
theorem RunResume_continues_on_error_witness :
    (demoRun ["deployments/a", "deployments/missing", "deployments/c"]).returns
      = [none, some (Error.mk ErrorKind.NotFound "deployments/missing"), none] ∧
    (demoRun ["deployments/a", "deployments/missing", "deployments/c"]).out
      = ["deployments/a resumed", "deployments/c resumed"] ∧
    applied (demoRun ["deployments/a", "deployments/missing",
        "deployments/c"]).world.trace
      = [RuntimeObject.single "a", RuntimeObject.single "c"] ∧
    (demoRun ["deployments/a", "deployments/missing", "deployments/c"]).returns.length
      = (demoRun ["deployments/a", "deployments/missing", "deployments/c"]).visited.length :=
  ⟨rfl, rfl, rfl,
    (RunResume_continues_on_error demoPipeline demoConfig demoFactory ⟨"resume RESOURCE"⟩ []
      ["deployments/a", "deployments/missing", "deployments/c"] demoWorld 1
      (Error.mk ErrorKind.NotFound "deployments/missing") rfl).2.2.1⟩

/-- C3: `RunResume` returns an error exactly when there was no source, or
the lookup of the namespace failed, or the result of the builder chain carries
a fatal error, or the callback returned an error for some entry; and the callback
returned an error for some entry exactly when an entry was a resolution error
or the action function returned an error.  So a run in which every entry
resolves and the action function never fails returns nil, already resumed or
not, and one failed entry makes the result an error. -/
theorem RunResume_error_iff {σ : Type} (p : Pipeline σ) (o : ResumeConfig σ)
    (f : Factory σ) (cmd : Command) (out : Writer) (args : List String) (w : World σ) :
    ((RunResume p o f cmd out args w).err ≠ none ↔
      (args = [] ∧ o.Filenames = []) ∨ (f.DefaultNamespace w.ext).1.2.2 ≠ none ∨
      (setupResult p o f out args w).Err ≠ none ∨
      ∃ e, some e ∈ (RunResume p o f cmd out args w).returns) ∧
    ((∃ e, some e ∈ (RunResume p o f cmd out args w).returns) ↔
      entryErrors (RunResume p o f cmd out args w).visited ≠ [] ∨
      actionErrors ((RunResume p o f cmd out args w).world.trace.drop w.trace.length)
        ≠ []) := by
  constructor
  · have hlen : (args = [] ∧ o.Filenames = []) ↔
        (args.length = 0 ∧ o.Filenames.length = 0) := by
      simp [List.length_eq_zero]
    rw [hlen]
    by_cases h : (args.length = 0 ∧ o.Filenames.length = 0) ∨
        (f.DefaultNamespace w.ext).1.2.2 ≠ none ∨ (setupResult p o f out args w).Err ≠ none
    · have h1 := (RunResume_returns_nil p o f cmd out args w h).1
      constructor
      · intro _
        rcases h with h | h | h
        · exact Or.inl h
        · exact Or.inr (Or.inl h)
        · exact Or.inr (Or.inr (Or.inl h))
      · intro _
        exact h1
    · have h2 := h
      simp only [not_or, not_not] at h2
      rw [RunResume_visit p o f cmd out args w h2.1 h2.2.1 h2.2.2]
      have hs := setupVisit_sound p o f out args w
      simp only [aggregate_ne_none, hs.errs, ← some_mem_iff]
      constructor
      · intro hx
        exact Or.inr (Or.inr (Or.inr hx))
      · rintro (hx | hx | hx | hx)
        · exact absurd (Or.inl hx) h
        · exact absurd (Or.inr (Or.inl hx)) h
        · exact absurd (Or.inr (Or.inr hx)) h
        · exact hx
  · have hs := RunResume_sound p o f cmd out args w
    obtain ⟨evs, ht, -, hc⟩ := hs.trace
    have hd : (RunResume p o f cmd out args w).world.trace.drop w.trace.length = evs := by
      have : (RunResume p o f cmd out args w).world.trace = w.trace ++ evs := ht
      rw [this]
      simp
    rw [hd, some_mem_iff]
    simp only [RunResult.toVisited] at hc
    rw [← List.length_pos, ← List.length_pos, ← List.length_pos, hc]
    omega

/-- Witness of C3 on the instance: two objects that resolve and resume give
nil, whether resumed or already resumed; one reference that is not found among
two that succeed gives an error. -/
theorem RunResume_error_iff_witness :
    (demoRun ["deployments/a", "deployments/b"]).err = none ∧
    (demoRun ["deployments/a", "deployments/b"]).out
      = ["deployments/a resumed", "deployments/b already resumed"] ∧
    (demoRun ["deployments/a", "deployments/missing", "deployments/c"]).err ≠ none :=
  ⟨rfl, rfl,
    (RunResume_error_iff demoPipeline demoConfig demoFactory ⟨"resume RESOURCE"⟩ []
      ["deployments/a", "deployments/missing", "deployments/c"] demoWorld).1.mpr
      (Or.inr (Or.inr (Or.inr ⟨Error.mk ErrorKind.NotFound "deployments/missing",
        List.mem_cons_of_mem _ (List.mem_cons_self _ _)⟩)))⟩

/-- C9: the builder of `RunResume` has flattening on, and the entries handed
to the callback are the resolved entries flattened, in order: an entry whose
payload is a list of n items stands for n singular entries, in the order of the
list; an entry whose payload is no list, and an error entry, pass unchanged.
Every entry handed to the callback is singular.  So when one reference
resolves to a list of n items, n entries are visited, n outcomes are produced
and the action function is invoked n times, on the items in order. -/
theorem RunResume_flattens {σ : Type} (p : Pipeline σ) (o : ResumeConfig σ)
    (f : Factory σ) (cmd : Command) (out : Writer) (args : List String) (w : World σ) :
    (setupBuilder o f out args w).flatten = true ∧
    (RunResume p o f cmd out args w).visited
      = (RunResume p o f cmd out args w).resolved.flatMap FlattenEntry ∧
    (∀ x ∈ (RunResume p o f cmd out args w).visited, x.singular) ∧
    (∀ (i : Info) (items : List Member), i.Object = RuntimeObject.list items →
      FlattenEntry (Entry.resolved i)
        = items.map (fun m => Entry.resolved (m.toInfo i.Source)) ∧
      (FlattenEntry (Entry.resolved i)).length = items.length) ∧
    (∀ (i : Info) (d : String), i.Object = RuntimeObject.single d →
      FlattenEntry (Entry.resolved i) = [Entry.resolved i]) ∧
    (∀ e : Error, FlattenEntry (Entry.failed e) = [Entry.failed e]) ∧
    (∀ (i : Info) (items : List Member),
      (RunResume p o f cmd out args w).resolved = [Entry.resolved i] →
      i.Object = RuntimeObject.list items →
      (RunResume p o f cmd out args w).visited
        = items.map (fun m => Entry.resolved (m.toInfo i.Source)) ∧
      (RunResume p o f cmd out args w).returns.length = items.length ∧
      ∃ evs, (RunResume p o f cmd out args w).world.trace = w.trace ++ evs ∧
        applied evs = items.map (fun m => RuntimeObject.single m.data)) := by
  have hflat := RunResume_visited_flat p o f cmd out args w
  have hlist : ∀ (i : Info) (items : List Member), i.Object = RuntimeObject.list items →
      FlattenEntry (Entry.resolved i)
        = items.map (fun m => Entry.resolved (m.toInfo i.Source)) := by
    intro i items hi
    simp [FlattenEntry, hi]
  refine ⟨rfl, hflat, ?_, ?_, ?_, fun e => rfl, ?_⟩
  · intro x hx
    rw [hflat, List.mem_flatMap] at hx
    obtain ⟨e, -, hxe⟩ := hx
    exact FlattenEntry_singular e x hxe
  · intro i items hi
    rw [hlist i items hi]
    exact ⟨rfl, by simp⟩
  · intro i d hi
    simp [FlattenEntry, hi]
  · intro i items hres hi
    have hv : (RunResume p o f cmd out args w).visited
        = items.map (fun m => Entry.resolved (m.toInfo i.Source)) := by
      rw [hflat, hres]
      simp [hlist i items hi]
    have hs := RunResume_sound p o f cmd out args w
    obtain ⟨evs, ht, ha, -⟩ := hs.trace
    refine ⟨hv, ?_, evs, ht, ?_⟩
    · have := hs.rets.length_eq
      simp only [RunResult.toVisited] at this
      rw [← this, hv]
      simp
    · simp only [RunResult.toVisited] at ha
      rw [ha, hv, List.filterMap_map]
      simp only [Function.comp_def, Entry.payload, Member.toInfo]
      exact congrFun (List.filterMap_eq_map (fun m : Member => RuntimeObject.single m.data))
        items

/-- Witness of C9 on the instance: the bare type `deployments` resolves to a
list of four objects; four entries are visited, four outcomes are produced and
four lines are written. -/
theorem RunResume_flattens_witness :
    (demoRun ["deployments"]).resolved.length = 1 ∧
    (demoRun ["deployments"]).visited.length = 4 ∧
    (demoRun ["deployments"]).returns.length = 4 ∧
    (demoRun ["deployments"]).out
      = ["deployments/a resumed", "deployments/b already resumed", "deployments/c resumed",
         "deployments/d already resumed"] :=
  have h := (RunResume_flattens demoPipeline demoConfig demoFactory ⟨"resume RESOURCE"⟩ []
    ["deployments"] demoWorld).2.2.2.2.2.2
      { Mapping := { Resource := "deployments", Version := "v1", Namespaced := true },
        Namespace := "default", Name := "",
        Source := some { sourceKind := SourceKind.explicit, typeHint := some "deployments",
                         nameHint := none, location := "deployments" },
        Object := RuntimeObject.list ((["a", "b", "c", "d"]).map
          (demoMember "deployments" "default")) }
      ((["a", "b", "c", "d"]).map (demoMember "deployments" "default")) rfl rfl
  ⟨rfl, congrArg List.length h.1, h.2.1, rfl⟩

end Rollout
